import Mathlib

/-!
The 15-minute energy accumulator of `src/compute_kWh.c`.

A shallow embedding of the C program and the properties of its
energy-integration engine.

Modelling conventions.

* `double` values (`prev_watts`, `accum_watts`, `hour_ms`, `w2kwh`) are exact
  rationals: rounding is not modelled, and neither is the six-decimal `%f`
  rendering of the report value.
* The target is LP64.  The `long` arithmetic of `diff`, which multiplies a
  difference of seconds by `10^9`, is 64-bit two's complement: every operation
  is reduced by `wrapLong`, so a difference of `2^63` nanoseconds or more
  wraps.  The seconds of the bound and the `int` values of `main` stay far from
  their limits and are plain integers.
* C integer division and remainder are `Int.tdiv` and `Int.tmod`.
* The C library's `localtime` is a parameter of `on_message` and `main`; the
  function `gmtime` is its instance for a process running in UTC and is what
  concrete evaluations use.  The text of `strftime` is a list of characters,
  and the month check reads its characters 5 and 6 as the code does.
* File descriptors are integers; the kernel side of the unblock pipe is the
  single bit `pipe_readable` (what `select` reports for the read end).
-/

namespace ComputeKWh

/-! ## Data -/

/-- The C `struct timespec`: whole seconds and nanoseconds. -/
structure Timespec where
  tv_sec : Int
  tv_nsec : Int
deriving DecidableEq, Repr

/-- The fields of the C `struct tm` that the program reads. -/
structure Tm where
  tm_sec : Int
  tm_min : Int
  tm_hour : Int
  tm_mday : Int
  tm_mon : Int
  tm_year : Int
deriving DecidableEq, Repr

/-- The globals `pipe_wr_fd` and `pipe_rd_fd`, and whether `select` finds the
read end of the pipe readable. -/
structure WaitState where
  pipe_wr_fd : Int
  pipe_rd_fd : Int
  pipe_readable : Bool
deriving DecidableEq, Repr

/-- How a call of `inputReadyWait` ends: it returns `true` or `false`, it stays
blocked in `select`, or the process exits. -/
inductive WaitResult where
  | returned (stdin_has_data : Bool)
  | blocked
  | exited
deriving DecidableEq, Repr

/-- The file-scope variables of the program, with the function-local static
`first_time` of `diff`. -/
structure State where
  prev_watts : ℚ
  accum_watts : ℚ
  next_lower_bound : Timespec
  prev_sample : Timespec
  first_time : Bool
  wait : WaitState

/-- A message of the broker: its topic and the value `atof` reads from its
payload. -/
structure Message where
  topic : String
  watts : ℚ

/-- One line of the output file: the period start (the `time_t` value
`start_interval` and its label) and the energy in kWh. -/
structure Report where
  start_interval : Int
  period_start : List Char
  kWh : ℚ

/-- What one call of `on_message` does besides updating the globals: the report
line it writes, if any, and whether it calls `cancelInputWait`. -/
structure Output where
  report : Option Report
  cancel_called : Bool

/-- A reading: a message on the power topic and the clock value read for it. -/
structure Reading where
  watts : ℚ
  now : Timespec

/-! ## Constants -/

/-- The constant `month_offset`: where the month starts in a label. -/
def month_offset : Nat := 5

/-- The constant `fifteen_min`, in seconds. -/
def fifteen_min : Int := 15 * 60

/-- The constant `hour_ms`: hours per millisecond. -/
def hour_ms : ℚ := 1 / (60 * 60 * 1000)

/-- The constant `w2kwh`: watt-hours per kWh. -/
def w2kwh : ℚ := 1000

/-- The constant `ns2ms`: nanoseconds per millisecond. -/
def ns2ms : Int := 1000000

/-- The topic `on_message` integrates. -/
def power_topic : String := "emon/emonesp/W"

/-! ## The sample clock -/

/-- A value of the C type `long`: the integer reduced to the signed 64-bit
range, which is what an operation that overflows leaves. -/
def wrapLong (x : Int) : Int :=
  (x + 9223372036854775808) % 18446744073709551616 - 9223372036854775808

/-- The local `temp` of `diff` before the division: the nanoseconds from
`start` to `stop`, every operation in `long`. -/
def diff_temp (start stop : Timespec) : Int :=
  if wrapLong (stop.tv_nsec - start.tv_nsec) < 0 then
    wrapLong
      (wrapLong (1000000000 * wrapLong (wrapLong (stop.tv_sec - start.tv_sec) - 1))
        + wrapLong (wrapLong (1000000000 + stop.tv_nsec) - start.tv_nsec))
  else
    wrapLong
      (wrapLong (1000000000 * wrapLong (stop.tv_sec - start.tv_sec))
        + wrapLong (stop.tv_nsec - start.tv_nsec))

/-- The function `diff`: the elapsed milliseconds between two clock values and
the new value of the static `first_time`. -/
def diff (first_time : Bool) (start stop : Timespec) : Int × Bool :=
  if first_time then
    (1000, false)
  else
    (Int.tdiv (diff_temp start stop) ns2ms, first_time)

/-- The calls of `diff` a process makes, in order, from a given value of
`first_time`: the list of the values returned. -/
def diffCalls : Bool → List (Timespec × Timespec) → List Int
  | _, [] => []
  | ft, p :: ps => (diff ft p.1 p.2).1 :: diffCalls (diff ft p.1 p.2).2 ps

/-- A clock value whose nanosecond field is in `[0, 10^9)`. -/
def Timespec.valid (t : Timespec) : Prop :=
  0 ≤ t.tv_nsec ∧ t.tv_nsec < 1000000000

instance (t : Timespec) : Decidable t.valid := by
  unfold Timespec.valid; infer_instance

/-- The instant `a` is not later than the instant `b`. -/
def Timespec.le (a b : Timespec) : Prop :=
  a.tv_sec < b.tv_sec ∨ (a.tv_sec = b.tv_sec ∧ a.tv_nsec ≤ b.tv_nsec)

instance (a b : Timespec) : Decidable (a.le b) := by
  unfold Timespec.le; infer_instance

/-- The instant `a` is earlier than the instant `b`. -/
def Timespec.lt (a b : Timespec) : Prop :=
  a.tv_sec < b.tv_sec ∨ (a.tv_sec = b.tv_sec ∧ a.tv_nsec < b.tv_nsec)

instance (a b : Timespec) : Decidable (a.lt b) := by
  unfold Timespec.lt; infer_instance

/-- The instant `b` is less than `2^63` nanoseconds after the instant `a`: the
nanoseconds from `a` to `b` are a `long`. -/
def Timespec.fits (a b : Timespec) : Prop :=
  1000000000 * (b.tv_sec - a.tv_sec) + (b.tv_nsec - a.tv_nsec) ≤ 9223372036854775807

instance (a b : Timespec) : Decidable (a.fits b) := by
  unfold Timespec.fits; infer_instance

/-! ## The cancellable wait -/

/-- The first part of `inputReadyWait`: create the unblock pipe when
`pipe_wr_fd` is zero.  `new_pipe` is what `pipe()` yields, the read end and the
write end of a fresh pipe, or `none` when it fails and the process exits. -/
def inputReadyWait_setup (w : WaitState) (new_pipe : Option (Int × Int)) :
    Option WaitState :=
  if w.pipe_wr_fd = 0 then
    match new_pipe with
    | none => none
    | some (rd, wr) => some { pipe_wr_fd := wr, pipe_rd_fd := rd, pipe_readable := false }
  else
    some w

/-- The second part of `inputReadyWait`: `select` on stdin and the read end of
the pipe, then the result.  With neither readable the call stays in `select`;
a failing `select` is left out. -/
def inputReadyWait_select (w : WaitState) (stdin_has_data : Bool) :
    WaitState × WaitResult :=
  if stdin_has_data then
    (w, WaitResult.returned true)
  else if w.pipe_readable then
    ({ w with pipe_rd_fd := 0 }, WaitResult.returned false)
  else
    (w, WaitResult.blocked)

/-- The function `inputReadyWait`. -/
def inputReadyWait (w : WaitState) (new_pipe : Option (Int × Int))
    (stdin_has_data : Bool) : WaitState × WaitResult :=
  match inputReadyWait_setup w new_pipe with
  | none => (w, WaitResult.exited)
  | some w1 => inputReadyWait_select w1 stdin_has_data

/-- The function `cancelInputWait`: with a write end at hand, write to it and
close it, which makes the read end readable whatever the write did, and forget
it; otherwise nothing. -/
def cancelInputWait (w : WaitState) : WaitState :=
  if w.pipe_wr_fd ≠ 0 then
    { w with pipe_readable := true, pipe_wr_fd := 0 }
  else
    w

/-! ## Calendar -/

/-- The conversion `%d` of a number: its decimal digits, after a minus sign
when it is negative. -/
def decimal (v : Int) : List Char :=
  if v < 0 then '-' :: Nat.toDigits 10 v.natAbs else Nat.toDigits 10 v.toNat

/-- The conversion `%02d` of a number: at least two characters, a single digit
after a zero. -/
def decimal2 (v : Int) : List Char :=
  if 0 ≤ v ∧ v < 10 then '0' :: decimal v else decimal v

/-- The text `strftime` writes for `time_format = "%Y-%m-%d_%H:%M"`.  The year
is printed in plain decimal; the buffer of 20 bytes holds the text for every
year of up to seven characters. -/
def strftime (clock : Tm) : List Char :=
  decimal (clock.tm_year + 1900) ++ '-' :: (decimal2 (clock.tm_mon + 1)
    ++ '-' :: (decimal2 clock.tm_mday ++ '_' :: (decimal2 clock.tm_hour
    ++ ':' :: decimal2 clock.tm_min)))

/-- The two characters at `month_offset` of a label, which `on_message` copies
and compares with `memcmp`. -/
def monthChars (period_start : List Char) : List Char :=
  (period_start.drop month_offset).take 2

/-- A broken-down time whose year prints as four digits and whose month is in
`[0, 11]`. -/
def Tm.fourDigitYear (clock : Tm) : Prop :=
  (1000 ≤ clock.tm_year + 1900 ∧ clock.tm_year + 1900 ≤ 9999)
  ∧ (0 ≤ clock.tm_mon ∧ clock.tm_mon ≤ 11)

instance (clock : Tm) : Decidable clock.fourDigitYear := by
  unfold Tm.fourDigitYear; infer_instance

/-- Year, month (1 to 12) and day of the month of a day number counted from
1970-01-01, in the proleptic Gregorian calendar. -/
def civilFromDays (days : Int) : Int × Int × Int :=
  let z := days + 719468
  let era := z / 146097
  let doe := z - era * 146097
  let yoe := (doe - doe / 1460 + doe / 36524 - doe / 146096) / 365
  let doy := doe - (365 * yoe + yoe / 4 - yoe / 100)
  let mp := (5 * doy + 2) / 153
  let d := doy - (153 * mp + 2) / 5 + 1
  let m := if mp < 10 then mp + 3 else mp - 9
  let y := yoe + era * 400 + (if m ≤ 2 then 1 else 0)
  (y, m, d)

/-- The C library's `localtime` for a process whose time zone is UTC. -/
def gmtime (t : Int) : Tm :=
  let c := civilFromDays (t / 86400)
  let r := t % 86400
  { tm_sec := r % 60, tm_min := r % 3600 / 60, tm_hour := r / 3600,
    tm_mday := c.2.2, tm_mon := c.2.1 - 1, tm_year := c.1 - 1900 }

/-! ## The accumulator -/

/-- The function `on_message`, for the message `msg` when `clock_gettime`
yields `now`.  The traces printed under `DEBUG` and `VERBOSE` are left out. -/
def on_message (localtime : Int → Tm) (s : State) (msg : Message) (now : Timespec) :
    State × Output :=
  if msg.topic ≠ power_topic then
    (s, { report := none, cancel_called := false })
  else
    let current_watts := msg.watts
    let average_watts := (current_watts + s.prev_watts) / 2
    let sample := diff s.first_time s.prev_sample now
    let sample_ms := sample.1
    let accum := s.accum_watts + average_watts * hour_ms * sample_ms
    if now.tv_sec ≥ s.next_lower_bound.tv_sec then
      let start_interval := s.next_lower_bound.tv_sec - fifteen_min
      let period_start := strftime (localtime start_interval)
      let report : Report :=
        { start_interval := start_interval, period_start := period_start,
          kWh := accum / w2kwh }
      let bound : Timespec :=
        { s.next_lower_bound with tv_sec := s.next_lower_bound.tv_sec + fifteen_min }
      let old_month := monthChars period_start
      let new_label := strftime (localtime bound.tv_sec)
      if old_month ≠ monthChars new_label then
        ({ prev_watts := current_watts, accum_watts := 0, next_lower_bound := bound,
           prev_sample := now, first_time := sample.2,
           wait := cancelInputWait s.wait },
         { report := some report, cancel_called := true })
      else
        ({ prev_watts := current_watts, accum_watts := 0, next_lower_bound := bound,
           prev_sample := now, first_time := sample.2, wait := s.wait },
         { report := some report, cancel_called := false })
    else
      ({ prev_watts := current_watts, accum_watts := accum,
         next_lower_bound := s.next_lower_bound, prev_sample := now,
         first_time := sample.2, wait := s.wait },
       { report := none, cancel_called := false })

/-- The start-up adjustment of `main`, from the minute and the second of the
local start time. -/
def adjustment (tm_min tm_sec : Int) : Int :=
  let a1 : Int := if tm_sec ≠ 0 then 60 - tm_sec else 0
  let min1 : Int := if tm_sec ≠ 0 then tm_min + 1 else tm_min
  if Int.tmod min1 15 ≠ 0 then a1 + 60 * (15 - Int.tmod min1 15) else a1

/-- The value of `next_lower_bound` when `main` starts the message loop, from
the clock value `start` read at start-up. -/
def main_next_lower_bound (localtime : Int → Tm) (start : Timespec) : Timespec :=
  let clock := localtime start.tv_sec
  let lower : Timespec :=
    { start with tv_sec := start.tv_sec + (adjustment clock.tm_min clock.tm_sec - fifteen_min) }
  { lower with tv_sec := lower.tv_sec + fifteen_min }

/-- The globals when the message loop starts, with the given
`next_lower_bound`: no watts seen, nothing accumulated, no sample, no pipe. -/
def init (bound : Timespec) : State :=
  { prev_watts := 0, accum_watts := 0, next_lower_bound := bound,
    prev_sample := { tv_sec := 0, tv_nsec := 0 }, first_time := true,
    wait := { pipe_wr_fd := 0, pipe_rd_fd := 0, pipe_readable := false } }

/-- One reading through `on_message`. -/
def ingest (localtime : Int → Tm) (s : State) (r : Reading) : State × Output :=
  on_message localtime s { topic := power_topic, watts := r.watts } r.now

/-- A sequence of readings through `on_message`: the final globals and the
output of each call, in order. -/
def run (localtime : Int → Tm) (s : State) : List Reading → State × List Output
  | [] => (s, [])
  | r :: rs =>
    ((run localtime (ingest localtime s r).1 rs).1,
     (ingest localtime s r).2 :: (run localtime (ingest localtime s r).1 rs).2)

/-- The globals after the first `n` readings of a sequence. -/
def stateAt (localtime : Int → Tm) (s : State) (rs : List Reading) (n : Nat) : State :=
  (run localtime s (rs.take n)).1

/-- The number of report lines in a list of outputs. -/
def flushCount (os : List Output) : Nat :=
  (os.filter (fun o => o.report.isSome)).length

/-- The trapezoid `on_message` adds for a reading: the mean of the reading and
the previous one, times the elapsed time in hours. -/
def trapezoid (s : State) (r : Reading) : ℚ :=
  (r.watts + s.prev_watts) / 2 * hour_ms * (diff s.first_time s.prev_sample r.now).1

/-- The condition under which `on_message` calls `cancelInputWait` when it
flushes with the given bound: the month characters of the period start differ
from those of the new bound. -/
def monthChanged (localtime : Int → Tm) (bound_sec : Int) : Bool :=
  monthChars (strftime (localtime (bound_sec - fifteen_min)))
    != monthChars (strftime (localtime (bound_sec + fifteen_min)))


/-! ## Invariants of a run -/

/-- Each reading of the list is less than `2^63` nanoseconds after the one
before it. -/
def stepsFit : List Reading → Prop
  | a :: b :: rest => a.now.fits b.now ∧ stepsFit (b :: rest)
  | _ => True

/-- What a sequence of readings with non-negative watts and strictly
increasing valid clock values, each less than `2^63` nanoseconds after the one
before, needs of the globals it starts from. -/
def Ready (s : State) (rs : List Reading) : Prop :=
  0 ≤ s.prev_watts ∧ 0 ≤ s.accum_watts
  ∧ (∀ r ∈ rs, 0 ≤ r.watts ∧ r.now.valid)
  ∧ rs.Pairwise (fun a b => a.now.lt b.now)
  ∧ stepsFit rs
  ∧ (s.first_time = true
      ∨ (s.prev_sample.valid ∧ (∀ r ∈ rs, s.prev_sample.lt r.now)
          ∧ ∀ r : Reading, rs.head? = some r → s.prev_sample.fits r.now))

/-- Either nothing is accumulated or some reading of `all` lies in the open
period. -/
def Covered (s : State) (all : List Reading) : Prop :=
  s.accum_watts = 0
  ∨ ∃ r ∈ all, s.next_lower_bound.tv_sec - 900 ≤ r.now.tv_sec
      ∧ r.now.tv_sec < s.next_lower_bound.tv_sec

/-! ## Lemmas on `diff` -/

/-- A value in the range of `long` is left as it is. -/
theorem wrapLong_of_fits (x : Int) (h1 : -9223372036854775808 ≤ x)
    (h2 : x ≤ 9223372036854775807) : wrapLong x = x := by
  unfold wrapLong
  omega

/-- The nanoseconds between two valid instants in order are not negative. -/
theorem nanos_nonneg (start stop : Timespec) (hs : start.valid) (he : stop.valid)
    (hle : start.le stop) :
    0 ≤ 1000000000 * (stop.tv_sec - start.tv_sec) + (stop.tv_nsec - start.tv_nsec) := by
  unfold Timespec.valid at hs he
  unfold Timespec.le at hle
  omega

/-- For two valid instants in order and less than `2^63` nanoseconds apart, no
operation of `diff` overflows and both branches give the nanoseconds between
them. -/
theorem diff_temp_eq (start stop : Timespec) (hs : start.valid) (he : stop.valid)
    (hle : start.le stop) (hfit : start.fits stop) :
    diff_temp start stop
      = 1000000000 * (stop.tv_sec - start.tv_sec) + (stop.tv_nsec - start.tv_nsec) := by
  unfold Timespec.valid at hs he
  unfold Timespec.le at hle
  unfold Timespec.fits at hfit
  have w1 : wrapLong (stop.tv_nsec - start.tv_nsec) = stop.tv_nsec - start.tv_nsec :=
    wrapLong_of_fits _ (by omega) (by omega)
  have w2 : wrapLong (stop.tv_sec - start.tv_sec) = stop.tv_sec - start.tv_sec :=
    wrapLong_of_fits _ (by omega) (by omega)
  have w3 : wrapLong (1000000000 + stop.tv_nsec) = 1000000000 + stop.tv_nsec :=
    wrapLong_of_fits _ (by omega) (by omega)
  unfold diff_temp
  rw [w1, w2, w3]
  by_cases hb : stop.tv_nsec - start.tv_nsec < 0
  · rw [if_pos hb]
    rw [wrapLong_of_fits (stop.tv_sec - start.tv_sec - 1) (by omega) (by omega)]
    rw [wrapLong_of_fits (1000000000 * (stop.tv_sec - start.tv_sec - 1)) (by omega)
      (by omega)]
    rw [wrapLong_of_fits (1000000000 + stop.tv_nsec - start.tv_nsec) (by omega) (by omega)]
    rw [wrapLong_of_fits _ (by omega) (by omega)]
    ring
  · rw [if_neg hb]
    rw [wrapLong_of_fits (1000000000 * (stop.tv_sec - start.tv_sec)) (by omega) (by omega)]
    rw [wrapLong_of_fits _ (by omega) (by omega)]

/-- The value of `diff` after the first call, in terms of `temp`. -/
theorem diff_false_eq (start stop : Timespec) :
    diff false start stop = (Int.tdiv (diff_temp start stop) 1000000, false) := by
  simp [diff, ns2ms]

/-- The value of `diff` after the first call is not negative for valid instants
in order and less than `2^63` nanoseconds apart. -/
theorem diff_false_nonneg (start stop : Timespec) (hs : start.valid) (he : stop.valid)
    (hle : start.le stop) (hfit : start.fits stop) : 0 ≤ (diff false start stop).1 := by
  rw [diff_false_eq, diff_temp_eq start stop hs he hle hfit]
  have h := nanos_nonneg start stop hs he hle
  show 0 ≤ Int.tdiv _ 1000000
  rw [Int.tdiv_eq_ediv h (by norm_num)]
  omega

/-- The first call of `diff` returns the default. -/
theorem diff_true (start stop : Timespec) : diff true start stop = (1000, false) := by
  simp [diff]

/-- The value of `diff` is never negative from the first call on, for valid
instants in order and less than `2^63` nanoseconds apart. -/
theorem diff_nonneg (ft : Bool) (start stop : Timespec) (hs : start.valid)
    (he : stop.valid) (hle : start.le stop) (hfit : start.fits stop) :
    0 ≤ (diff ft start stop).1 := by
  cases ft with
  | false => exact diff_false_nonneg start stop hs he hle hfit
  | true => rw [diff_true]; decide

/-- The static `first_time` is clear after every call of `diff`. -/
theorem diff_snd (ft : Bool) (start stop : Timespec) : (diff ft start stop).2 = false := by
  cases ft <;> simp [diff]

/-- Two instants of the realtime clock in order, not before 1970 and below
`2^63` nanoseconds, are less than `2^63` nanoseconds apart. -/
theorem fits_of_realtime (start stop : Timespec) (hs : start.valid)
    (h0 : 0 ≤ start.tv_sec)
    (h1 : 1000000000 * stop.tv_sec + stop.tv_nsec ≤ 9223372036854775807) :
    start.fits stop := by
  unfold Timespec.valid at hs
  unfold Timespec.fits
  omega

/-! ## The claims on `diff` -/

/-- C6: the first call of `diff` returns 1000 for every pair of clock values
and clears `first_time`; every later call returns the difference computed from
its arguments, the `long` value `temp` over `10^6`, which is 0 for two equal
clock values and the milliseconds between two valid clock values in order and
less than `2^63` nanoseconds apart; so in any sequence of calls the first
returns the default and every later one the computed difference. -/
theorem C6_diff_bootstrap_first_call_only :
    (∀ a b : Timespec, diff true a b = (1000, false))
    ∧ (∀ a b : Timespec, diff false a b = (Int.tdiv (diff_temp a b) 1000000, false))
    ∧ (∀ a : Timespec, (diff false a a).1 = 0)
    ∧ (∀ a b : Timespec, a.valid → b.valid → a.le b → a.fits b →
        (diff false a b).1
          = ((b.tv_sec - a.tv_sec) * 1000000000 + b.tv_nsec - a.tv_nsec) / 1000000)
    ∧ (∀ (p : Timespec × Timespec) (ps : List (Timespec × Timespec)),
        diffCalls true (p :: ps)
          = 1000 :: ps.map (fun q => Int.tdiv (diff_temp q.1 q.2) 1000000)) := by
  refine ⟨diff_true, diff_false_eq, fun a => ?_, fun a b ha hb hle hfit => ?_,
    fun p ps => ?_⟩
  · rw [diff_false_eq]
    have h : diff_temp a a = 0 := by
      unfold diff_temp
      simp only [sub_self]
      have z : wrapLong 0 = 0 := by decide
      rw [z, if_neg (by decide)]
      decide
    rw [h]
    decide
  · rw [diff_false_eq, diff_temp_eq a b ha hb hle hfit]
    have h := nanos_nonneg a b ha hb hle
    show Int.tdiv _ 1000000 = _
    rw [Int.tdiv_eq_ediv h (by norm_num)]
    congr 1
    ring
  · have key : ∀ qs : List (Timespec × Timespec), diffCalls false qs
        = qs.map (fun q => Int.tdiv (diff_temp q.1 q.2) 1000000) := by
      intro qs
      induction qs with
      | nil => rfl
      | cons q qs ih =>
        simp only [diffCalls, List.map_cons, diff_false_eq, ih]
    simp only [diffCalls, diff_true, key]

/-- C7 fails: on a call after the first, from `{0, 0}` to
`{9223372036, 854775808}`, two valid clock values in order, the nanoseconds
reach `2^63`, `temp` wraps and `diff` returns -9223372036854, a negative value
and not the 9223372036854 whole milliseconds between them. -/
theorem C7_counterexample_long_wraps :
    (Timespec.mk 0 0).valid ∧ (Timespec.mk 9223372036 854775808).valid
    ∧ (Timespec.mk 0 0).le (Timespec.mk 9223372036 854775808)
    ∧ (diff false (Timespec.mk 0 0) (Timespec.mk 9223372036 854775808)).1
        = -9223372036854
    ∧ ((9223372036 - 0) * 1000000000 + 854775808 - 0 : Int) / 1000000 = 9223372036854 := by
  decide

/-- C7 amended: on a call after the first, for two clock values with
nanoseconds in `[0, 10^9)`, the second not earlier than the first and less than
`2^63` nanoseconds after it, `diff` returns a value that is not negative and is
the whole number of milliseconds between them, the floor of the nanoseconds
over `10^6`, with or without a borrow. -/
theorem C7_diff_whole_milliseconds (start stop : Timespec) (hs : start.valid)
    (he : stop.valid) (hle : start.le stop) (hfit : start.fits stop) :
    0 ≤ (diff false start stop).1
    ∧ (diff false start stop).1
        = ((stop.tv_sec - start.tv_sec) * 1000000000 + stop.tv_nsec - start.tv_nsec)
            / 1000000 := by
  refine ⟨diff_false_nonneg start stop hs he hle hfit, ?_⟩
  rw [diff_false_eq, diff_temp_eq start stop hs he hle hfit]
  have h := nanos_nonneg start stop hs he hle
  show Int.tdiv _ 1000000 = _
  rw [Int.tdiv_eq_ediv h (by norm_num)]
  congr 1
  ring

/-- C7 amended, at a borrow: from 10.9 s to 12.1 s is 1200 ms. -/
theorem C7_diff_whole_milliseconds_witness :
    (Timespec.mk 10 900000000).valid ∧ (Timespec.mk 12 100000000).valid
    ∧ (Timespec.mk 10 900000000).le (Timespec.mk 12 100000000)
    ∧ (Timespec.mk 10 900000000).fits (Timespec.mk 12 100000000)
    ∧ (diff false (Timespec.mk 10 900000000) (Timespec.mk 12 100000000)).1 = 1200 :=
  ⟨by decide, by decide, by decide, by decide,
   by
    rw [(C7_diff_whole_milliseconds (Timespec.mk 10 900000000) (Timespec.mk 12 100000000)
      (by decide) (by decide) (by decide) (by decide)).2]
    decide⟩

/-! ## Lemmas on `on_message` -/

/-- A message on another topic changes nothing. -/
theorem on_message_other (lt : Int → Tm) (s : State) (msg : Message) (now : Timespec)
    (h : msg.topic ≠ power_topic) :
    on_message lt s msg now = (s, { report := none, cancel_called := false }) := by
  unfold on_message
  rw [if_pos h]

/-- A reading before the bound: the trapezoid goes to the accumulator. -/
theorem on_message_before (lt : Int → Tm) (s : State) (msg : Message) (now : Timespec)
    (h : msg.topic = power_topic) (h2 : now.tv_sec < s.next_lower_bound.tv_sec) :
    on_message lt s msg now
      = ({ prev_watts := msg.watts,
           accum_watts := s.accum_watts
             + (msg.watts + s.prev_watts) / 2 * hour_ms
               * (diff s.first_time s.prev_sample now).1,
           next_lower_bound := s.next_lower_bound, prev_sample := now,
           first_time := (diff s.first_time s.prev_sample now).2, wait := s.wait },
         { report := none, cancel_called := false }) := by
  have h3 : ¬ (now.tv_sec ≥ s.next_lower_bound.tv_sec) := not_le.mpr h2
  simp only [on_message, h, ne_eq, not_true_eq_false, if_false, h3]

/-- A reading at or after the bound: the report, the reset, the new bound and
the month check. -/
theorem on_message_flush (lt : Int → Tm) (s : State) (msg : Message) (now : Timespec)
    (h : msg.topic = power_topic) (h2 : s.next_lower_bound.tv_sec ≤ now.tv_sec) :
    on_message lt s msg now
      = ({ prev_watts := msg.watts, accum_watts := 0,
           next_lower_bound :=
             { tv_sec := s.next_lower_bound.tv_sec + fifteen_min,
               tv_nsec := s.next_lower_bound.tv_nsec },
           prev_sample := now,
           first_time := (diff s.first_time s.prev_sample now).2,
           wait := if monthChanged lt s.next_lower_bound.tv_sec
                   then cancelInputWait s.wait else s.wait },
         { report := some
             { start_interval := s.next_lower_bound.tv_sec - fifteen_min,
               period_start := strftime (lt (s.next_lower_bound.tv_sec - fifteen_min)),
               kWh := (s.accum_watts
                 + (msg.watts + s.prev_watts) / 2 * hour_ms
                   * (diff s.first_time s.prev_sample now).1) / w2kwh },
           cancel_called := monthChanged lt s.next_lower_bound.tv_sec }) := by
  have h3 : now.tv_sec ≥ s.next_lower_bound.tv_sec := h2
  simp only [on_message, h, ne_eq, not_true_eq_false, if_false, h3, if_true, monthChanged,
    bne_iff_ne]
  split_ifs <;> simp_all

/-- Whether `on_message` writes a report: exactly for the power topic at or
after the bound. -/
theorem on_message_report_isSome (lt : Int → Tm) (s : State) (msg : Message)
    (now : Timespec) :
    (on_message lt s msg now).2.report.isSome
      = decide (msg.topic = power_topic ∧ s.next_lower_bound.tv_sec ≤ now.tv_sec) := by
  by_cases h : msg.topic = power_topic
  · by_cases h2 : s.next_lower_bound.tv_sec ≤ now.tv_sec
    · rw [on_message_flush lt s msg now h h2]; simp [h, h2]
    · rw [on_message_before lt s msg now h (not_le.mp h2)]; simp [h, h2]
  · rw [on_message_other lt s msg now h]; simp [h]

/-- The bound after `on_message`: fifteen minutes later when a report is
written, the same otherwise. -/
theorem on_message_bound (lt : Int → Tm) (s : State) (msg : Message) (now : Timespec) :
    (on_message lt s msg now).1.next_lower_bound.tv_sec
      = s.next_lower_bound.tv_sec
          + (if (on_message lt s msg now).2.report.isSome then 900 else 0) := by
  by_cases h : msg.topic = power_topic
  · by_cases h2 : s.next_lower_bound.tv_sec ≤ now.tv_sec
    · rw [on_message_flush lt s msg now h h2]; simp [fifteen_min]
    · rw [on_message_before lt s msg now h (not_le.mp h2)]; simp
  · rw [on_message_other lt s msg now h]; simp

/-- The bound after a sequence of readings is the first bound plus fifteen
minutes for each report. -/
theorem run_bound (lt : Int → Tm) (rs : List Reading) :
    ∀ s : State, (run lt s rs).1.next_lower_bound.tv_sec
      = s.next_lower_bound.tv_sec + 900 * (flushCount (run lt s rs).2 : Int) := by
  induction rs with
  | nil => intro s; simp [run, flushCount]
  | cons r rs ih =>
    intro s
    have hb := on_message_bound lt s { topic := power_topic, watts := r.watts } r.now
    simp only [run, ih, flushCount, List.filter_cons]
    unfold ingest
    rw [hb]
    split_ifs
    · simp; ring
    · simp

/-! ## The claims on the accumulator -/

/-- C1: for every state and every reading on the power topic with watts `w` at
time `t`, the energy total of the open period after the reading is
`accum + ((w + prev_watts) / 2) * elapsed * (1 / 3600000)` with `elapsed` the
value of `diff`: before the bound it is the new accumulator and nothing is
written; at or after the bound it is, divided by 1000, the value of the report
written for the period that ends at the bound; in both cases `prev_watts`
becomes `w` and `prev_sample` becomes `t`. -/
theorem C1_trapezoid_goes_to_open_period (lt : Int → Tm) (s : State) (w : ℚ)
    (t : Timespec) :
    (t.tv_sec < s.next_lower_bound.tv_sec →
      (on_message lt s { topic := power_topic, watts := w } t).1.accum_watts
          = s.accum_watts
            + ((w + s.prev_watts) / 2) * ((diff s.first_time s.prev_sample t).1 : ℚ)
              * (1 / 3600000)
      ∧ (on_message lt s { topic := power_topic, watts := w } t).2.report = none)
    ∧ (s.next_lower_bound.tv_sec ≤ t.tv_sec →
      ∃ rep : Report,
        (on_message lt s { topic := power_topic, watts := w } t).2.report = some rep
        ∧ rep.start_interval = s.next_lower_bound.tv_sec - 900
        ∧ rep.kWh
            = (s.accum_watts
                + ((w + s.prev_watts) / 2) * ((diff s.first_time s.prev_sample t).1 : ℚ)
                  * (1 / 3600000)) / 1000)
    ∧ (on_message lt s { topic := power_topic, watts := w } t).1.prev_watts = w
    ∧ (on_message lt s { topic := power_topic, watts := w } t).1.prev_sample = t := by
  have key : ∀ x e : ℚ, x * hour_ms * e = x * e * (1 / 3600000) := by
    intro x e; unfold hour_ms; ring
  refine ⟨fun h => ?_, fun h => ?_, ?_, ?_⟩
  · rw [on_message_before lt s _ t rfl h]
    exact ⟨key _ _ ▸ rfl, rfl⟩
  · rw [on_message_flush lt s _ t rfl h]
    refine ⟨_, rfl, by simp [fifteen_min], ?_⟩
    simp only [w2kwh, key]
  · by_cases h : s.next_lower_bound.tv_sec ≤ t.tv_sec
    · rw [on_message_flush lt s _ t rfl h]
    · rw [on_message_before lt s _ t rfl (not_le.mp h)]
  · by_cases h : s.next_lower_bound.tv_sec ≤ t.tv_sec
    · rw [on_message_flush lt s _ t rfl h]
    · rw [on_message_before lt s _ t rfl (not_le.mp h)]

/-- C2: every call of `on_message` that writes a report sets the accumulator
to 0 and adds exactly 900 seconds to the bound; a call that writes none leaves
the bound as it is; so after any sequence of readings the bound is the first
bound plus 900 seconds times the number of reports. -/
theorem C2_flush_resets_and_advances_by_900 (lt : Int → Tm) :
    (∀ (s : State) (msg : Message) (now : Timespec),
        (on_message lt s msg now).2.report.isSome = true →
          (on_message lt s msg now).1.accum_watts = 0
          ∧ (on_message lt s msg now).1.next_lower_bound.tv_sec
              = s.next_lower_bound.tv_sec + 900)
    ∧ (∀ (s : State) (msg : Message) (now : Timespec),
        (on_message lt s msg now).2.report.isSome = false →
          (on_message lt s msg now).1.next_lower_bound = s.next_lower_bound)
    ∧ (∀ (s : State) (rs : List Reading),
        (run lt s rs).1.next_lower_bound.tv_sec
          = s.next_lower_bound.tv_sec + 900 * (flushCount (run lt s rs).2 : Int)) := by
  refine ⟨fun s msg now h => ?_, fun s msg now h => ?_, fun s rs => run_bound lt rs s⟩
  · refine ⟨?_, ?_⟩
    · rw [on_message_report_isSome, decide_eq_true_eq] at h
      rw [on_message_flush lt s msg now h.1 h.2]
    · rw [on_message_bound, h]; simp
  · by_cases h1 : msg.topic = power_topic
    · by_cases h2 : s.next_lower_bound.tv_sec ≤ now.tv_sec
      · rw [on_message_report_isSome] at h
        simp [h1, h2] at h
      · rw [on_message_before lt s msg now h1 (not_le.mp h2)]
    · rw [on_message_other lt s msg now h1]

/-! ## The start-up alignment -/

/-- The adjustment for a minute in `[0, 59]` and a second in `[0, 59]`: in
`[0, 899]`, and it completes the time of the hour to a multiple of 900 s. -/
theorem adjustment_spec (m s : Int) (hm : 0 ≤ m ∧ m ≤ 59) (hs : 0 ≤ s ∧ s ≤ 59) :
    0 ≤ adjustment m s ∧ adjustment m s ≤ 899
    ∧ (60 * m + s + adjustment m s) % 900 = 0 := by
  unfold adjustment
  by_cases h0 : s = 0
  · subst h0
    simp only [ne_eq, not_true_eq_false, if_false]
    rw [Int.tmod_eq_emod hm.1 (by norm_num)]
    split_ifs <;> omega
  · simp only [ne_eq, h0, not_false_eq_true, if_true]
    rw [Int.tmod_eq_emod (by omega) (by norm_num)]
    split_ifs <;> omega

/-- C10: for a start time whose local minute and second are in `[0, 59]`, the
adjustment of `main` is in `[0, 899]` and the first bound, start plus
adjustment, is the earliest instant not before the start at a full quarter of
an hour: `(60 * m + s + adjustment) mod 900 = 0` and no smaller non-negative
offset does that; every call of `on_message` keeps the bound aligned. -/
theorem C10_bound_aligned_to_quarter_hour (lt : Int → Tm) (start : Timespec)
    (hm : 0 ≤ (lt start.tv_sec).tm_min ∧ (lt start.tv_sec).tm_min ≤ 59)
    (hs : 0 ≤ (lt start.tv_sec).tm_sec ∧ (lt start.tv_sec).tm_sec ≤ 59) :
    (0 ≤ adjustment (lt start.tv_sec).tm_min (lt start.tv_sec).tm_sec
      ∧ adjustment (lt start.tv_sec).tm_min (lt start.tv_sec).tm_sec ≤ 899)
    ∧ (main_next_lower_bound lt start).tv_sec
        = start.tv_sec + adjustment (lt start.tv_sec).tm_min (lt start.tv_sec).tm_sec
    ∧ (60 * (lt start.tv_sec).tm_min + (lt start.tv_sec).tm_sec
        + ((main_next_lower_bound lt start).tv_sec - start.tv_sec)) % 900 = 0
    ∧ (∀ a : Int, 0 ≤ a →
        a < adjustment (lt start.tv_sec).tm_min (lt start.tv_sec).tm_sec →
        (60 * (lt start.tv_sec).tm_min + (lt start.tv_sec).tm_sec + a) % 900 ≠ 0)
    ∧ (∀ (st : State) (msg : Message) (now : Timespec),
        (60 * (lt start.tv_sec).tm_min + (lt start.tv_sec).tm_sec
          + (st.next_lower_bound.tv_sec - start.tv_sec)) % 900 = 0 →
        (60 * (lt start.tv_sec).tm_min + (lt start.tv_sec).tm_sec
          + ((on_message lt st msg now).1.next_lower_bound.tv_sec - start.tv_sec)) % 900
            = 0) := by
  obtain ⟨h1, h2, h3⟩ := adjustment_spec _ _ hm hs
  have hb : (main_next_lower_bound lt start).tv_sec
      = start.tv_sec + adjustment (lt start.tv_sec).tm_min (lt start.tv_sec).tm_sec := by
    simp only [main_next_lower_bound, fifteen_min]
    ring
  refine ⟨⟨h1, h2⟩, hb, ?_, ?_, ?_⟩
  · rw [hb]
    have : start.tv_sec + adjustment (lt start.tv_sec).tm_min (lt start.tv_sec).tm_sec
        - start.tv_sec = adjustment (lt start.tv_sec).tm_min (lt start.tv_sec).tm_sec := by
      ring
    rw [this]
    exact h3
  · intro a ha hlt
    omega
  · intro st msg now hal
    rw [on_message_bound]
    split_ifs <;> omega

/-- C10 at a start one second past a full hour in UTC: the adjustment is 899
seconds. -/
theorem C10_bound_aligned_to_quarter_hour_witness :
    (0 ≤ (gmtime 1685577601).tm_min ∧ (gmtime 1685577601).tm_min ≤ 59)
    ∧ (0 ≤ (gmtime 1685577601).tm_sec ∧ (gmtime 1685577601).tm_sec ≤ 59)
    ∧ (main_next_lower_bound gmtime (Timespec.mk 1685577601 0)).tv_sec
        = 1685577601
          + adjustment (gmtime 1685577601).tm_min (gmtime 1685577601).tm_sec :=
  ⟨by decide, by decide,
   (C10_bound_aligned_to_quarter_hour gmtime (Timespec.mk 1685577601 0)
      (by decide) (by decide)).2.1⟩

/-! ## The cancellable wait -/

/-- C9 fails: `cancelInputWait` before any `inputReadyWait` finds
`pipe_wr_fd = 0` and does nothing, and the next `inputReadyWait`, with no input
on stdin, creates the pipe (descriptors 3 and 4) and stays in `select`; it does
not return `false`. -/
theorem C9_counterexample_signal_before_wait_is_lost :
    cancelInputWait (init (Timespec.mk 1685577600 0)).wait
        = (init (Timespec.mk 1685577600 0)).wait
    ∧ (inputReadyWait (cancelInputWait (init (Timespec.mk 1685577600 0)).wait)
          (some (3, 4)) false).2 = WaitResult.blocked
    ∧ (inputReadyWait (cancelInputWait (init (Timespec.mk 1685577600 0)).wait)
          (some (3, 4)) false).2 ≠ WaitResult.returned false := by
  decide

/-- C9 amended: when `cancelInputWait` is called while `pipe_wr_fd` is 0, as it
is before `inputReadyWait` has ever been called, it changes nothing, and the
next `inputReadyWait` with no input on stdin creates its pipe and stays blocked
in `select`; a `cancelInputWait` called after `inputReadyWait` has created the
pipe, with a non-zero write descriptor, makes the `select` of that wait return
and the wait return `false`. -/
theorem C9_signal_needs_a_wait_in_progress (w : WaitState) (h : w.pipe_wr_fd = 0) :
    cancelInputWait w = w
    ∧ (∀ rd wr : Int,
        (inputReadyWait (cancelInputWait w) (some (rd, wr)) false).2 = WaitResult.blocked)
    ∧ (∀ rd wr : Int, wr ≠ 0 →
        ∃ w1 : WaitState, inputReadyWait_setup w (some (rd, wr)) = some w1
          ∧ (inputReadyWait_select w1 false).2 = WaitResult.blocked
          ∧ (inputReadyWait_select (cancelInputWait w1) false).2
              = WaitResult.returned false) := by
  have hc : cancelInputWait w = w := by simp [cancelInputWait, h]
  refine ⟨hc, fun rd wr => ?_, fun rd wr hwr => ?_⟩
  · simp [hc, inputReadyWait, inputReadyWait_setup, inputReadyWait_select, h]
  · refine ⟨{ pipe_wr_fd := wr, pipe_rd_fd := rd, pipe_readable := false }, ?_, ?_, ?_⟩
    · simp [inputReadyWait_setup, h]
    · simp [inputReadyWait_select]
    · simp [inputReadyWait_select, cancelInputWait, hwr]

/-- C9 amended, at the wait state the program starts with. -/
theorem C9_signal_needs_a_wait_in_progress_witness :
    (init (Timespec.mk 1685577600 0)).wait.pipe_wr_fd = 0
    ∧ (inputReadyWait (cancelInputWait (init (Timespec.mk 1685577600 0)).wait)
          (some (3, 4)) false).2 = WaitResult.blocked :=
  ⟨rfl, (C9_signal_needs_a_wait_in_progress (init (Timespec.mk 1685577600 0)).wait rfl).2.1 3 4⟩

/-! ## The month check -/

/-- A number from 1000 to 9999 has four decimal digits. -/
theorem toDigits_length_four (y : Nat) (h1 : 1000 ≤ y) (h2 : y ≤ 9999) :
    (Nat.toDigits 10 y).length = 4 := by
  obtain ⟨k, rfl⟩ : ∃ k, y = k + 4 := ⟨y - 4, by omega⟩
  have a1 : (k + 4) / 10 ≠ 0 := by omega
  have a2 : (k + 4) / 10 / 10 ≠ 0 := by omega
  have a3 : (k + 4) / 10 / 10 / 10 ≠ 0 := by omega
  have a4 : (k + 4) / 10 / 10 / 10 / 10 = 0 := by omega
  simp [Nat.toDigits, Nat.toDigitsCore, a1, a2, a3, a4]

/-- A year from 1000 to 9999 prints as four characters. -/
theorem decimal_year (y : Int) (h1 : 1000 ≤ y) (h2 : y ≤ 9999) :
    ∃ a b c d : Char, decimal y = [a, b, c, d] := by
  have hlen : (decimal y).length = 4 := by
    unfold decimal
    rw [if_neg (by omega)]
    exact toDigits_length_four _ (by omega) (by omega)
  match hd : decimal y, hlen with
  | [a, b, c, d], _ => exact ⟨a, b, c, d, rfl⟩

/-- A month from 1 to 12 prints as two characters. -/
theorem decimal2_month (m : Int) (h1 : 1 ≤ m) (h2 : m ≤ 12) :
    ∃ c1 c2 : Char, decimal2 m = [c1, c2] := by
  interval_cases m <;> exact ⟨_, _, rfl⟩

/-- Two months from 1 to 12 that print alike are equal. -/
theorem decimal2_month_inj (a b : Int) (ha1 : 1 ≤ a) (ha2 : a ≤ 12) (hb1 : 1 ≤ b)
    (hb2 : b ≤ 12) (h : decimal2 a = decimal2 b) : a = b := by
  interval_cases a <;> interval_cases b <;> first | rfl | (exact absurd h (by decide))

/-- With a four-digit year the characters at `month_offset` are the month. -/
theorem monthChars_strftime (clock : Tm) (h : clock.fourDigitYear) :
    monthChars (strftime clock) = decimal2 (clock.tm_mon + 1) := by
  obtain ⟨⟨hy1, hy2⟩, hm1, hm2⟩ := h
  obtain ⟨a, b, c, d, hy⟩ := decimal_year _ hy1 hy2
  obtain ⟨c1, c2, hm⟩ := decimal2_month (clock.tm_mon + 1) (by omega) (by omega)
  unfold monthChars strftime month_offset
  rw [hy, hm]
  rfl

/-- With four-digit years the month check of a flush compares the month of the
period start with the month of the new bound. -/
theorem monthChanged_iff (lt : Int → Tm) (b : Int)
    (h1 : (lt (b - 900)).fourDigitYear) (h2 : (lt (b + 900)).fourDigitYear) :
    monthChanged lt b = true ↔ (lt (b - 900)).tm_mon ≠ (lt (b + 900)).tm_mon := by
  unfold monthChanged fifteen_min
  have e1 : b - 15 * 60 = b - 900 := by norm_num
  have e2 : b + 15 * 60 = b + 900 := by norm_num
  rw [bne_iff_ne, e1, e2, monthChars_strftime _ h1, monthChars_strftime _ h2]
  constructor
  · intro h heq
    exact h (by rw [heq])
  · intro h heq
    have := decimal2_month_inj _ _ (by have := h1.2; omega) (by have := h1.2; omega)
      (by have := h2.2; omega) (by have := h2.2; omega) heq
    exact h (by omega)

/-- The month `gmtime` finds depends on the day number only. -/
theorem gmtime_mon (t : Int) : (gmtime t).tm_mon = (civilFromDays (t / 86400)).2.1 - 1 := rfl

/-- The year `gmtime` finds depends on the day number only. -/
theorem gmtime_year (t : Int) : (gmtime t).tm_year = (civilFromDays (t / 86400)).1 - 1900 :=
  rfl

/-- C3 fails: in UTC, around the month boundary 2023-06-01 00:00
(1685577600), the flush of the period from 23:30 and the next flush, of the
period from 23:45, both find the month changed and both call
`cancelInputWait`: the condition is true on two flushes, not one. -/
theorem C3_counterexample_two_flushes_per_month_boundary :
    (run gmtime (init (Timespec.mk 1685576700 0))
        [{ watts := 0, now := Timespec.mk 1685576700 0 },
         { watts := 0, now := Timespec.mk 1685577600 0 }]).2.map
      (fun o => (o.report.map (fun r => (r.start_interval, r.period_start)),
        o.cancel_called))
      = [(some (1685575800, "2023-05-31_23:30".toList), true),
         (some (1685576700, "2023-05-31_23:45".toList), true)]
    ∧ strftime (gmtime 1685577600) = "2023-06-01_00:00".toList
    ∧ strftime (gmtime 1685578500) = "2023-06-01_00:15".toList := by
  refine ⟨?_, by decide, by decide⟩
  simp only [run, ingest]
  rw [on_message_flush gmtime _ _ _ rfl (by decide)]
  rw [on_message_flush gmtime _ _ _ rfl (by decide)]
  decide

/-- C3 amended: for local times whose year has four digits, a flush calls
`cancelInputWait` exactly when the month of its period start differs from the
month of its new bound, which lies 1800 s after the period start; so the
condition is false on every flush whose period start and new bound lie in the
same month, and over a run of `n` consecutive flushes with bounds
`B0 + 900 * k` that contains one month boundary, at `B0 + 900 * j`, it is true
on exactly the two consecutive flushes `k = j - 1` and `k = j`: the one whose
new bound reaches the boundary and the next one. -/
theorem C3_month_check_true_on_two_flushes (lt : Int → Tm) (B0 : Int) (n j : Nat)
    (mo mn : Int) (hne : mo ≠ mn)
    (hyear : ∀ t : Int, B0 - 900 ≤ t → t ≤ B0 + 900 * n → (lt t).fourDigitYear)
    (hold : ∀ t : Int, B0 - 900 ≤ t → t < B0 + 900 * j → (lt t).tm_mon = mo)
    (hnew : ∀ t : Int, B0 + 900 * j ≤ t → t ≤ B0 + 900 * n → (lt t).tm_mon = mn) :
    (∀ (s : State) (w : ℚ) (now : Timespec),
        s.next_lower_bound.tv_sec ≤ now.tv_sec →
        (lt (s.next_lower_bound.tv_sec - 900)).fourDigitYear →
        (lt (s.next_lower_bound.tv_sec + 900)).fourDigitYear →
        (lt (s.next_lower_bound.tv_sec - 900)).tm_mon
          = (lt (s.next_lower_bound.tv_sec + 900)).tm_mon →
        (on_message lt s { topic := power_topic, watts := w } now).2.cancel_called = false)
    ∧ (∀ k : Nat, k < n → ∀ (s : State) (w : ℚ) (now : Timespec),
        s.next_lower_bound.tv_sec = B0 + 900 * k →
        s.next_lower_bound.tv_sec ≤ now.tv_sec →
        ((on_message lt s { topic := power_topic, watts := w } now).2.cancel_called = true
          ↔ (k + 1 = j ∨ k = j))) := by
  refine ⟨fun s w now hflush hy1 hy2 hsame => ?_, fun k hk s w now hb hflush => ?_⟩
  · rw [on_message_flush lt s _ now rfl hflush]
    show monthChanged lt s.next_lower_bound.tv_sec = false
    rw [← Bool.not_eq_true, monthChanged_iff lt _ hy1 hy2]
    exact fun h => h hsame
  · rw [on_message_flush lt s _ now rfl hflush]
    show monthChanged lt s.next_lower_bound.tv_sec = true ↔ _
    have e1 : B0 + 900 * (k : Int) - 900 = B0 + 900 * ((k : Int) - 1) := by ring
    have e2 : B0 + 900 * (k : Int) + 900 = B0 + 900 * ((k : Int) + 1) := by ring
    rw [hb, monthChanged_iff lt _ (hyear _ (by omega) (by omega))
      (hyear _ (by omega) (by omega)), e1, e2]
    by_cases h1 : k + 1 < j
    · rw [hold _ (by omega) (by omega), hold _ (by omega) (by omega)]
      constructor
      · intro h; exact absurd rfl h
      · intro h; omega
    · by_cases h2 : j < k
      · rw [hnew _ (by omega) (by omega), hnew _ (by omega) (by omega)]
        constructor
        · intro h; exact absurd rfl h
        · intro h; omega
      · rw [hold _ (by omega) (by omega), hnew _ (by omega) (by omega)]
        constructor
        · intro _; omega
        · intro _; exact hne

/-- C3 amended, in UTC around 2023-06-01 00:00: of four consecutive flushes
from the bound 23:30, the second, whose new bound is 00:00, finds the month
changed. -/
theorem C3_month_check_true_on_two_flushes_witness :
    (4 : Int) ≠ 5
    ∧ (∀ t : Int, 1685575800 - 900 ≤ t → t ≤ 1685575800 + 900 * (4 : Nat) →
        (gmtime t).fourDigitYear)
    ∧ (∀ t : Int, 1685575800 - 900 ≤ t → t < 1685575800 + 900 * (2 : Nat) →
        (gmtime t).tm_mon = 4)
    ∧ (∀ t : Int, 1685575800 + 900 * (2 : Nat) ≤ t → t ≤ 1685575800 + 900 * (4 : Nat) →
        (gmtime t).tm_mon = 5)
    ∧ ((on_message gmtime (init (Timespec.mk 1685576700 0))
          { topic := power_topic, watts := 100 } (Timespec.mk 1685576700 0)).2.cancel_called
            = true ↔ (1 + 1 = 2 ∨ 1 = 2)) :=
  have hyear : ∀ t : Int, 1685575800 - 900 ≤ t → t ≤ 1685575800 + 900 * (4 : Nat) →
      (gmtime t).fourDigitYear := by
    intro t h1 h2
    have hd : t / 86400 = 19508 ∨ t / 86400 = 19509 := by omega
    unfold Tm.fourDigitYear
    rw [gmtime_mon, gmtime_year]
    rcases hd with hd | hd <;> rw [hd] <;> decide
  have hold : ∀ t : Int, 1685575800 - 900 ≤ t → t < 1685575800 + 900 * (2 : Nat) →
      (gmtime t).tm_mon = 4 := by
    intro t h1 h2
    have hd : t / 86400 = 19508 := by omega
    rw [gmtime_mon, hd]
    decide
  have hnew : ∀ t : Int, 1685575800 + 900 * (2 : Nat) ≤ t →
      t ≤ 1685575800 + 900 * (4 : Nat) → (gmtime t).tm_mon = 5 := by
    intro t h1 h2
    have hd : t / 86400 = 19509 := by omega
    rw [gmtime_mon, hd]
    decide
  ⟨by decide, hyear, hold, hnew,
   (C3_month_check_true_on_two_flushes gmtime 1685575800 4 2 4 5 (by decide) hyear hold
      hnew).2
      1 (by decide) (init (Timespec.mk 1685576700 0)) 100 (Timespec.mk 1685576700 0)
      (by decide) (by decide)⟩

/-- With a five-digit year the characters at `month_offset` are not the month:
in UTC, around 10000-02-01 00:00 (253404979200), the labels of the period start
and of the new bound both have `-0` there and no flush finds the month
changed. -/
theorem month_check_five_digit_year :
    strftime (gmtime 253404977400) = "10000-01-31_23:30".toList
    ∧ strftime (gmtime 253404979200) = "10000-02-01_00:00".toList
    ∧ monthChanged gmtime 253404978300 = false
    ∧ monthChanged gmtime 253404979200 = false := by
  decide

/-! ## The round trip of one period -/

/-- C4 fails: from the initial state, 100 W at the start of the period and
100 W 900 s later give the report value 1801/72000 kWh (0.0250138...), not
`100 * 0.25 / 1000 = 0.025` kWh: the first reading adds the trapezoid of
`(100 + 0) / 2` W over the default 1000 ms. -/
theorem C4_counterexample_first_reading_adds_bootstrap_trapezoid :
    (run gmtime (init (Timespec.mk 1685577600 0))
        [{ watts := 100, now := Timespec.mk 1685576700 0 },
         { watts := 100, now := Timespec.mk 1685577600 0 }]).2.map
      (fun o => o.report.map (fun r => (r.start_interval, r.kWh)))
      = [none, some (1685576700, 1801 / 72000)]
    ∧ (1801 / 72000 : ℚ) ≠ 100 * 0.25 / 1000 := by
  refine ⟨?_, by norm_num⟩
  simp only [run, ingest]
  rw [on_message_before gmtime _ _ _ rfl (by decide)]
  rw [on_message_flush gmtime _ _ _ rfl (by decide)]
  simp only [List.map, Option.map, init, diff_false_eq, diff_true, hour_ms, w2kwh,
    fifteen_min]
  have e3 : Int.tdiv (diff_temp (Timespec.mk 1685576700 0) (Timespec.mk 1685577600 0))
      1000000 = 900000 := by
    decide
  rw [e3]
  norm_num

/-- C4 amended: from the initial state with `t0` the start of the open period,
for every constant power `w`, the two readings `w` at `t0` and `w` at
`t0 + 900 s` write for the period that starts at `t0` one report, at the second
reading, with the value `(w * 0.25 + w / 7200) / 1000` kWh: the quarter of an
hour at `w` and the trapezoid of `(w + 0) / 2` over the default 1000 ms that
the first reading adds. -/
theorem C4_two_readings_one_period (lt : Int → Tm) (w : ℚ) (t0 n nb : Int) :
    (run lt (init (Timespec.mk (t0 + 900) nb))
        [{ watts := w, now := Timespec.mk t0 n },
         { watts := w, now := Timespec.mk (t0 + 900) n }]).2.map
      (fun o => o.report.map (fun r => (r.start_interval, r.kWh)))
      = [none, some (t0, (w * 0.25 + w / 7200) / 1000)] := by
  simp only [run, ingest]
  rw [on_message_before lt _ _ _ rfl (by simp [init])]
  rw [on_message_flush lt _ _ _ rfl (by simp [init])]
  simp only [List.map, Option.map, init, diff_false_eq, diff_true, hour_ms, w2kwh,
    fifteen_min]
  have e1 : (t0 + 900 - 15 * 60 : Int) = t0 := by omega
  have e2 : diff_temp (Timespec.mk t0 n) (Timespec.mk (t0 + 900) n) = 900000000000 := by
    unfold diff_temp
    simp only [sub_self, add_sub_cancel_left]
    have z : wrapLong 0 = 0 := by decide
    rw [z, if_neg (by decide)]
    decide
  rw [e1, e2]
  have e3 : Int.tdiv 900000000000 1000000 = 900000 := by decide
  rw [e3]
  congr 3
  push_cast
  norm_num
  ring

/-! ## Sequences of readings -/

/-- No reading: the globals are unchanged. -/
theorem stateAt_zero (lt : Int → Tm) (s : State) (rs : List Reading) :
    stateAt lt s rs 0 = s := by
  simp [stateAt, run]

/-- The globals after `n + 1` readings, from the front. -/
theorem stateAt_cons (lt : Int → Tm) (s : State) (r : Reading) (rs : List Reading) (n : Nat) :
    stateAt lt s (r :: rs) (n + 1) = stateAt lt (ingest lt s r).1 rs n := by
  simp [stateAt, run]

/-- The globals after `n + 1` readings are those after `n` readings and the
reading that follows. -/
theorem stateAt_succ (lt : Int → Tm) (rs : List Reading) :
    ∀ (s : State) (n : Nat) (r : Reading), rs[n]? = some r →
      stateAt lt s rs (n + 1) = (ingest lt (stateAt lt s rs n) r).1 := by
  induction rs with
  | nil => intro s n r h; simp at h
  | cons a rs ih =>
    intro s n r h
    cases n with
    | zero =>
      simp only [List.getElem?_cons_zero, Option.some.injEq] at h
      subst h
      rw [stateAt_cons, stateAt_zero, stateAt_zero]
    | succ n =>
      simp only [List.getElem?_cons_succ] at h
      rw [stateAt_cons, stateAt_cons, ih _ n r h]

/-- The output of the reading at position `n` is that of `on_message` from the
globals after the first `n` readings. -/
theorem run_output (lt : Int → Tm) (rs : List Reading) :
    ∀ (s : State) (n : Nat) (r : Reading), rs[n]? = some r →
      (run lt s rs).2[n]? = some (ingest lt (stateAt lt s rs n) r).2 := by
  induction rs with
  | nil => intro s n r h; simp at h
  | cons a rs ih =>
    intro s n r h
    cases n with
    | zero =>
      simp only [List.getElem?_cons_zero, Option.some.injEq] at h
      subst h
      simp [run, stateAt_zero]
    | succ n =>
      simp only [List.getElem?_cons_succ] at h
      simp only [run, List.getElem?_cons_succ, stateAt_cons]
      exact ih _ n r h

/-- An earlier instant is not later. -/
theorem Timespec.le_of_lt (a b : Timespec) (h : a.lt b) : a.le b := by
  unfold Timespec.lt at h
  unfold Timespec.le
  omega

/-- The trapezoid of a reading with non-negative watts is not negative when
the elapsed time is not. -/
theorem trapezoid_nonneg (s : State) (r : Reading) (h0 : 0 ≤ s.prev_watts)
    (hw : 0 ≤ r.watts) (hd : 0 ≤ (diff s.first_time s.prev_sample r.now).1) :
    0 ≤ trapezoid s r := by
  unfold trapezoid hour_ms
  have hq : (0 : ℚ) ≤ ((diff s.first_time s.prev_sample r.now).1 : ℚ) := by exact_mod_cast hd
  positivity

/-- The accumulator after a reading: 0 after a flush, the old value plus the
trapezoid otherwise. -/
theorem ingest_accum (lt : Int → Tm) (s : State) (r : Reading) :
    (ingest lt s r).1.accum_watts
      = if (ingest lt s r).2.report.isSome then 0 else s.accum_watts + trapezoid s r := by
  unfold ingest
  by_cases h : s.next_lower_bound.tv_sec ≤ r.now.tv_sec
  · rw [on_message_flush lt s _ r.now rfl h]; simp
  · rw [on_message_before lt s _ r.now rfl (not_le.mp h)]; simp [trapezoid]

/-- The sample fields after a reading. -/
theorem ingest_sample (lt : Int → Tm) (s : State) (r : Reading) :
    (ingest lt s r).1.prev_watts = r.watts ∧ (ingest lt s r).1.prev_sample = r.now
    ∧ (ingest lt s r).1.first_time = false := by
  unfold ingest
  by_cases h : s.next_lower_bound.tv_sec ≤ r.now.tv_sec
  · rw [on_message_flush lt s _ r.now rfl h]; exact ⟨rfl, rfl, diff_snd _ _ _⟩
  · rw [on_message_before lt s _ r.now rfl (not_le.mp h)]; exact ⟨rfl, rfl, diff_snd _ _ _⟩

/-- The elapsed time of the first reading of a ready sequence is not
negative. -/
theorem ready_diff_nonneg {s : State} {r : Reading} {rs : List Reading}
    (h : Ready s (r :: rs)) : 0 ≤ (diff s.first_time s.prev_sample r.now).1 := by
  obtain ⟨_, _, hv, _, _, hft⟩ := h
  rcases hft with hft | ⟨hpv, hlt, hfit⟩
  · rw [hft, diff_true]; decide
  · exact diff_nonneg _ _ _ hpv (hv r (List.mem_cons_self _ _)).2
      (Timespec.le_of_lt _ _ (hlt r (List.mem_cons_self _ _))) (hfit r rfl)

/-- A ready sequence stays ready after its first reading. -/
theorem ready_step (lt : Int → Tm) {s : State} {r : Reading} {rs : List Reading}
    (h : Ready s (r :: rs)) : Ready (ingest lt s r).1 rs := by
  have hd := ready_diff_nonneg h
  obtain ⟨h0, h1, hv, hp, hsf, _⟩ := h
  have hr := hv r (List.mem_cons_self _ _)
  obtain ⟨e1, e2, e3⟩ := ingest_sample lt s r
  rw [List.pairwise_cons] at hp
  have hsf2 : stepsFit rs ∧ ∀ x : Reading, rs.head? = some x → r.now.fits x.now := by
    cases rs with
    | nil => exact ⟨trivial, fun x hx => by simp at hx⟩
    | cons b rest =>
      refine ⟨hsf.2, fun x hx => ?_⟩
      simp only [List.head?_cons, Option.some.injEq] at hx
      subst hx
      exact hsf.1
  refine ⟨?_, ?_, fun x hx => hv x (List.mem_cons_of_mem _ hx), hp.2, hsf2.1,
    Or.inr ⟨?_, ?_, ?_⟩⟩
  · rw [e1]; exact hr.1
  · rw [ingest_accum]
    split_ifs
    · exact le_refl 0
    · exact add_nonneg h1 (trapezoid_nonneg s r h0 hr.1 hd)
  · rw [e2]; exact hr.2
  · rw [e2]; exact hp.1
  · rw [e2]; exact hsf2.2

/-- After any number of readings of a ready sequence the rest is ready. -/
theorem ready_stateAt (lt : Int → Tm) (rs : List Reading) :
    ∀ (s : State) (n : Nat), Ready s rs → Ready (stateAt lt s rs n) (rs.drop n) := by
  induction rs with
  | nil =>
    intro s n h
    simpa [stateAt, run] using h
  | cons r rs ih =>
    intro s n h
    cases n with
    | zero => simpa [stateAt_zero] using h
    | succ n =>
      rw [stateAt_cons, List.drop_succ_cons]
      exact ih _ n (ready_step lt h)

/-- C8 fails: a single reading of -100 W from the initial state leaves the
accumulator at -1/72, below 0; after a reading of 100 W a reading of -300 W one
second later, with no flush between them, lowers it; and after 100 W at
`{1, 0}` a reading of 100 W at `{9223372038, 0}`, `2^63` nanoseconds and more
later, makes `diff` wrap to -9223372036709 ms and the accumulator negative,
with no flush between them. -/
theorem C8_counterexample_negative_watts :
    (stateAt gmtime (init (Timespec.mk 1685577600 0))
        [{ watts := -100, now := Timespec.mk 1685576700 0 }] 1).accum_watts = -1 / 72
    ∧ (stateAt gmtime (init (Timespec.mk 1685577600 0))
        [{ watts := 100, now := Timespec.mk 1685576700 0 },
         { watts := -300, now := Timespec.mk 1685576701 0 }] 1).accum_watts = 1 / 72
    ∧ (stateAt gmtime (init (Timespec.mk 1685577600 0))
        [{ watts := 100, now := Timespec.mk 1685576700 0 },
         { watts := -300, now := Timespec.mk 1685576701 0 }] 2).accum_watts = -1 / 72
    ∧ (stateAt gmtime (init (Timespec.mk 9223372040 0))
        [{ watts := 100, now := Timespec.mk 1 0 },
         { watts := 100, now := Timespec.mk 9223372038 0 }] 1).accum_watts = 1 / 72
    ∧ (stateAt gmtime (init (Timespec.mk 9223372040 0))
        [{ watts := 100, now := Timespec.mk 1 0 },
         { watts := 100, now := Timespec.mk 9223372038 0 }] 2).accum_watts
        = 1 / 72 - 9223372036709 / 36000
    ∧ (1 / 72 - 9223372036709 / 36000 : ℚ) < 0 := by
  refine ⟨?_, ?_, ?_, ?_, ?_, by norm_num⟩
  · simp only [stateAt, List.take, run, ingest]
    rw [on_message_before gmtime _ _ _ rfl (by decide)]
    simp only [init, diff_true, hour_ms]
    norm_num
  · simp only [stateAt, List.take, run, ingest]
    rw [on_message_before gmtime _ _ _ rfl (by decide)]
    simp only [init, diff_true, hour_ms]
    norm_num
  · simp only [stateAt, List.take, run, ingest]
    rw [on_message_before gmtime _ _ _ rfl (by decide)]
    rw [on_message_before gmtime _ _ _ rfl (by decide)]
    simp only [init, diff_true, diff_false_eq, hour_ms]
    have e3 : Int.tdiv (diff_temp (Timespec.mk 1685576700 0) (Timespec.mk 1685576701 0))
        1000000 = 1000 := by
      decide
    rw [e3]
    norm_num
  · simp only [stateAt, List.take, run, ingest]
    rw [on_message_before gmtime _ _ _ rfl (by decide)]
    simp only [init, diff_true, hour_ms]
    norm_num
  · simp only [stateAt, List.take, run, ingest]
    rw [on_message_before gmtime _ _ _ rfl (by decide)]
    rw [on_message_before gmtime _ _ _ rfl (by decide)]
    simp only [init, diff_true, diff_false_eq, hour_ms]
    have e3 : Int.tdiv (diff_temp (Timespec.mk 1 0) (Timespec.mk 9223372038 0))
        1000000 = -9223372036709 := by
      decide
    rw [e3]
    norm_num

/-- C8 amended: for every sequence of readings with non-negative watt values
and strictly increasing valid clock values, each less than `2^63` nanoseconds
after the one before, processed from the initial state, the accumulator is not
negative after every reading, and a reading that writes no report never lowers
it. -/
theorem C8_accumulator_nonneg_and_monotone (lt : Int → Tm) (bound : Timespec)
    (rs : List Reading) (hw : ∀ r ∈ rs, 0 ≤ r.watts) (hv : ∀ r ∈ rs, r.now.valid)
    (hinc : rs.Pairwise (fun a b => a.now.lt b.now)) (hfit : stepsFit rs) :
    (∀ n : Nat, 0 ≤ (stateAt lt (init bound) rs n).accum_watts)
    ∧ (∀ (n : Nat) (r : Reading) (o : Output), rs[n]? = some r →
        (run lt (init bound) rs).2[n]? = some o → o.report = none →
        (stateAt lt (init bound) rs n).accum_watts
          ≤ (stateAt lt (init bound) rs (n + 1)).accum_watts) := by
  have h0 : Ready (init bound) rs :=
    ⟨le_refl 0, le_refl 0, fun r hr => ⟨hw r hr, hv r hr⟩, hinc, hfit, Or.inl rfl⟩
  refine ⟨fun n => (ready_stateAt lt rs _ n h0).2.1, fun n r o hr ho hnone => ?_⟩
  have hn := ready_stateAt lt rs _ n h0
  have hdrop : rs.drop n = r :: rs.drop (n + 1) := by
    have hlt : n < rs.length := by
      rcases Nat.lt_or_ge n rs.length with h | h
      · exact h
      · rw [List.getElem?_eq_none h] at hr; cases hr
    rw [List.getElem?_eq_getElem hlt, Option.some.injEq] at hr
    rw [← hr]
    exact List.drop_eq_getElem_cons hlt
  rw [hdrop] at hn
  rw [run_output lt rs _ n r hr, Option.some.injEq] at ho
  rw [stateAt_succ lt rs _ n r hr, ingest_accum, ho, hnone]
  simp only [Option.isSome_none, Bool.false_eq_true, if_false]
  have := trapezoid_nonneg _ r hn.1 (hn.2.2.1 r (List.mem_cons_self _ _)).1 (ready_diff_nonneg hn)
  linarith

/-- C8 amended, on two readings of 100 W one second apart. -/
theorem C8_accumulator_nonneg_and_monotone_witness :
    (∀ r ∈ [Reading.mk 100 (Timespec.mk 1685576700 0),
            Reading.mk 100 (Timespec.mk 1685576701 0)], (0 : ℚ) ≤ r.watts)
    ∧ (∀ r ∈ [Reading.mk 100 (Timespec.mk 1685576700 0),
            Reading.mk 100 (Timespec.mk 1685576701 0)], r.now.valid)
    ∧ [Reading.mk 100 (Timespec.mk 1685576700 0),
        Reading.mk 100 (Timespec.mk 1685576701 0)].Pairwise (fun a b => a.now.lt b.now)
    ∧ stepsFit [Reading.mk 100 (Timespec.mk 1685576700 0),
        Reading.mk 100 (Timespec.mk 1685576701 0)]
    ∧ 0 ≤ (stateAt gmtime (init (Timespec.mk 1685577600 0))
        [Reading.mk 100 (Timespec.mk 1685576700 0),
         Reading.mk 100 (Timespec.mk 1685576701 0)] 2).accum_watts :=
  have hw : ∀ r ∈ [Reading.mk 100 (Timespec.mk 1685576700 0),
      Reading.mk 100 (Timespec.mk 1685576701 0)], (0 : ℚ) ≤ r.watts := by
    intro r hr
    simp only [List.mem_cons, List.mem_singleton, List.not_mem_nil, or_false] at hr
    rcases hr with rfl | rfl <;> norm_num
  have hv : ∀ r ∈ [Reading.mk 100 (Timespec.mk 1685576700 0),
      Reading.mk 100 (Timespec.mk 1685576701 0)], r.now.valid := by
    intro r hr
    simp only [List.mem_cons, List.mem_singleton, List.not_mem_nil, or_false] at hr
    rcases hr with rfl | rfl <;> decide
  have hinc : [Reading.mk 100 (Timespec.mk 1685576700 0),
      Reading.mk 100 (Timespec.mk 1685576701 0)].Pairwise (fun a b => a.now.lt b.now) := by
    simp [Timespec.lt]
  have hfit : stepsFit [Reading.mk 100 (Timespec.mk 1685576700 0),
      Reading.mk 100 (Timespec.mk 1685576701 0)] := ⟨by decide, trivial⟩
  ⟨hw, hv, hinc, hfit,
   (C8_accumulator_nonneg_and_monotone gmtime (Timespec.mk 1685577600 0) _ hw hv hinc
      hfit).1 2⟩

/-! ## Periods without a reading -/

/-- The bound after a reading. -/
theorem ingest_bound (lt : Int → Tm) (s : State) (r : Reading) :
    (ingest lt s r).1.next_lower_bound.tv_sec
      = if s.next_lower_bound.tv_sec ≤ r.now.tv_sec then s.next_lower_bound.tv_sec + 900
        else s.next_lower_bound.tv_sec := by
  unfold ingest
  by_cases h : s.next_lower_bound.tv_sec ≤ r.now.tv_sec
  · rw [on_message_flush lt s _ r.now rfl h, if_pos h]; simp [fifteen_min]
  · rw [on_message_before lt s _ r.now rfl (not_le.mp h), if_neg h]

/-- A reading not before the start of the open period keeps the accumulator
covered. -/
theorem covered_step (lt : Int → Tm) {s : State} {all : List Reading} {r : Reading}
    (hr : r ∈ all) (hlo : s.next_lower_bound.tv_sec - 900 ≤ r.now.tv_sec) :
    Covered (ingest lt s r).1 all := by
  by_cases h : s.next_lower_bound.tv_sec ≤ r.now.tv_sec
  · left
    unfold ingest
    rw [on_message_flush lt s _ r.now rfl h]
  · right
    refine ⟨r, hr, ?_, ?_⟩
    · rw [ingest_bound, if_neg h]; exact hlo
    · rw [ingest_bound, if_neg h]; exact not_le.mp h

/-- With clock values that never go back and never precede the start of the
open period, the accumulator is covered after any number of readings. -/
theorem covered_stateAt (lt : Int → Tm) (all : List Reading) (rs : List Reading) :
    ∀ (s : State) (n : Nat), Covered s all → (∀ r ∈ rs, r ∈ all)
      → rs.Pairwise (fun a b => a.now.tv_sec ≤ b.now.tv_sec)
      → (∀ r ∈ rs, s.next_lower_bound.tv_sec - 900 ≤ r.now.tv_sec)
      → Covered (stateAt lt s rs n) all := by
  induction rs with
  | nil =>
    intro s n h _ _ _
    simpa [stateAt, run] using h
  | cons r rs ih =>
    intro s n h hsub hp hlo
    cases n with
    | zero => simpa [stateAt_zero] using h
    | succ n =>
      rw [stateAt_cons]
      rw [List.pairwise_cons] at hp
      have hr := hlo r (List.mem_cons_self _ _)
      refine ih _ n (covered_step lt (hsub r (List.mem_cons_self _ _)) hr)
        (fun x hx => hsub x (List.mem_cons_of_mem _ hx)) hp.2 (fun x hx => ?_)
      rw [ingest_bound]
      have h1 := hp.1 x hx
      have h2 := hlo x (List.mem_cons_of_mem _ hx)
      split_ifs with hf
      · omega
      · exact h2

/-- C5 fails: from the initial state with the bound 1685577600, the single
reading of 100 W at the bound writes the report of the period from 1685576700,
in which no reading lies, with the value 1/72000 kWh, not 0; and the readings
at 1685578500 and 1685578501 write one report each, so that the report of the
period from 1685577600, in which no reading lies, comes with the second
reading and not with the first one at or after the end 1685578500 of that
period, and has the value 1/18000 kWh. -/
theorem C5_counterexample_empty_period_is_not_zero :
    (run gmtime (init (Timespec.mk 1685577600 0))
        [{ watts := 100, now := Timespec.mk 1685577600 0 }]).2.map
      (fun o => o.report.map (fun r => (r.start_interval, r.kWh)))
      = [some (1685576700, 1 / 72000)]
    ∧ (run gmtime (init (Timespec.mk 1685577600 0))
        [{ watts := 100, now := Timespec.mk 1685578500 0 },
         { watts := 300, now := Timespec.mk 1685578501 0 }]).2.map
      (fun o => o.report.map (fun r => (r.start_interval, r.kWh)))
      = [some (1685576700, 1 / 72000), some (1685577600, 1 / 18000)]
    ∧ ¬ ((1685576700 : Int) ≤ 1685577600 ∧ (1685577600 : Int) < 1685576700 + 900)
    ∧ (1 / 72000 : ℚ) ≠ 0
    ∧ ¬ ((1685577600 : Int) ≤ 1685578500 ∧ (1685578500 : Int) < 1685577600 + 900)
    ∧ ¬ ((1685577600 : Int) ≤ 1685578501 ∧ (1685578501 : Int) < 1685577600 + 900)
    ∧ (1 / 18000 : ℚ) ≠ 0 := by
  refine ⟨?_, ?_, by decide, by norm_num, by decide, by decide, by norm_num⟩
  · simp only [run, ingest]
    rw [on_message_flush gmtime _ _ _ rfl (by decide)]
    simp only [List.map, Option.map, init, diff_true, hour_ms, w2kwh, fifteen_min]
    norm_num
  · simp only [run, ingest]
    rw [on_message_flush gmtime _ _ _ rfl (by decide)]
    rw [on_message_flush gmtime _ _ _ rfl (by decide)]
    simp only [List.map, Option.map, init, diff_true, diff_false_eq, hour_ms, w2kwh,
      fifteen_min]
    have e3 : Int.tdiv (diff_temp (Timespec.mk 1685578500 0) (Timespec.mk 1685578501 0))
        1000000 = 1000 := by
      decide
    rw [e3]
    norm_num

/-- C5 amended: for every sequence of readings whose clock values never go
back and never precede the start of the first open period, processed from the
initial state, and every report written, if no reading has a clock value
inside the report's period `[start, start + 900 s)`, then the report is written
by a reading at or after the end of that period, and its value is the trapezoid
of that reading alone, divided by 1000:
`(w + prev_watts) / 2 * elapsed / 3600000 / 1000`. -/
theorem C5_empty_period_gets_the_flushing_trapezoid (lt : Int → Tm) (bound : Timespec)
    (rs : List Reading)
    (hmono : rs.Pairwise (fun a b => a.now.tv_sec ≤ b.now.tv_sec))
    (hstart : ∀ r ∈ rs, bound.tv_sec - 900 ≤ r.now.tv_sec)
    (n : Nat) (r : Reading) (o : Output) (rep : Report)
    (hr : rs[n]? = some r) (ho : (run lt (init bound) rs).2[n]? = some o)
    (hrep : o.report = some rep)
    (hempty : ∀ x ∈ rs, ¬ (rep.start_interval ≤ x.now.tv_sec
      ∧ x.now.tv_sec < rep.start_interval + 900)) :
    rep.start_interval + 900 ≤ r.now.tv_sec
    ∧ rep.start_interval = (stateAt lt (init bound) rs n).next_lower_bound.tv_sec - 900
    ∧ rep.kWh = trapezoid (stateAt lt (init bound) rs n) r / 1000 := by
  have hcov : Covered (stateAt lt (init bound) rs n) rs :=
    covered_stateAt lt rs rs _ n (Or.inl rfl) (fun _ h => h) hmono hstart
  rw [run_output lt rs _ n r hr, Option.some.injEq] at ho
  subst ho
  unfold ingest at hrep
  by_cases hf : (stateAt lt (init bound) rs n).next_lower_bound.tv_sec ≤ r.now.tv_sec
  · rw [on_message_flush lt _ _ r.now rfl hf] at hrep
    simp only [Option.some.injEq] at hrep
    subst hrep
    simp only [fifteen_min]
    have hacc : (stateAt lt (init bound) rs n).accum_watts = 0 := by
      rcases hcov with h | ⟨x, hx, h1, h2⟩
      · exact h
      · exact absurd ⟨by simpa [fifteen_min] using h1, by simp only [fifteen_min]; omega⟩
          (hempty x hx)
    refine ⟨by omega, by norm_num, ?_⟩
    rw [hacc, zero_add]
    rfl
  · rw [on_message_before lt _ _ r.now rfl (not_le.mp hf)] at hrep
    cases hrep

/-- C5 amended, on the single reading of 100 W at the first bound: the report
of the period before it, in which no reading lies, is written by that reading
and carries its trapezoid. -/
theorem C5_empty_period_gets_the_flushing_trapezoid_witness :
    [Reading.mk 100 (Timespec.mk 1685577600 0)].Pairwise
        (fun a b => a.now.tv_sec ≤ b.now.tv_sec)
    ∧ (∀ r ∈ [Reading.mk 100 (Timespec.mk 1685577600 0)],
        (Timespec.mk 1685577600 0).tv_sec - 900 ≤ r.now.tv_sec)
    ∧ (ingest gmtime (init (Timespec.mk 1685577600 0))
          (Reading.mk 100 (Timespec.mk 1685577600 0))).2.report
        = some { start_interval := 1685576700, period_start := strftime (gmtime 1685576700),
                 kWh := 1 / 72000 }
    ∧ (∀ x ∈ [Reading.mk 100 (Timespec.mk 1685577600 0)],
        ¬ ((1685576700 : Int) ≤ x.now.tv_sec ∧ x.now.tv_sec < 1685576700 + 900))
    ∧ (1 / 72000 : ℚ)
        = trapezoid (stateAt gmtime (init (Timespec.mk 1685577600 0))
            [Reading.mk 100 (Timespec.mk 1685577600 0)] 0)
            (Reading.mk 100 (Timespec.mk 1685577600 0)) / 1000 :=
  have hmono : [Reading.mk 100 (Timespec.mk 1685577600 0)].Pairwise
      (fun a b => a.now.tv_sec ≤ b.now.tv_sec) := List.pairwise_singleton _ _
  have hstart : ∀ r ∈ [Reading.mk 100 (Timespec.mk 1685577600 0)],
      (Timespec.mk 1685577600 0).tv_sec - 900 ≤ r.now.tv_sec := by
    intro r hr
    simp only [List.mem_singleton] at hr
    subst hr
    decide
  have hrep : (ingest gmtime (init (Timespec.mk 1685577600 0))
      (Reading.mk 100 (Timespec.mk 1685577600 0))).2.report
      = some { start_interval := 1685576700, period_start := strftime (gmtime 1685576700),
               kWh := 1 / 72000 } := by
    unfold ingest
    rw [on_message_flush gmtime _ _ _ rfl (by decide)]
    simp only [init, diff_true, hour_ms, w2kwh, fifteen_min, Option.some.injEq,
      Report.mk.injEq]
    refine ⟨by norm_num, by norm_num, by norm_num⟩
  have hempty : ∀ x ∈ [Reading.mk 100 (Timespec.mk 1685577600 0)],
      ¬ ((1685576700 : Int) ≤ x.now.tv_sec ∧ x.now.tv_sec < 1685576700 + 900) := by
    intro x hx
    simp only [List.mem_singleton] at hx
    subst hx
    decide
  ⟨hmono, hstart, hrep, hempty,
   (C5_empty_period_gets_the_flushing_trapezoid gmtime (Timespec.mk 1685577600 0)
      [Reading.mk 100 (Timespec.mk 1685577600 0)] hmono hstart 0
      (Reading.mk 100 (Timespec.mk 1685577600 0))
      (ingest gmtime (init (Timespec.mk 1685577600 0))
        (Reading.mk 100 (Timespec.mk 1685577600 0))).2
      { start_interval := 1685576700, period_start := strftime (gmtime 1685576700),
        kWh := 1 / 72000 }
      rfl rfl hrep hempty).2.2⟩

end ComputeKWh
